import Mathlib

/-!
Shallow embedding of the Astraea reconciliation engine
(`src/reconciliation/tasks.py` and `src/reconciliation/models.py`).

Dates are modelled as integers (day numbers), Python `Decimal` amounts and
`float` scores as rationals, record primary keys as naturals.  Django ORM
state (the session's ledger records, bank records and matches) is modelled
as an explicit `MatchState` threaded through the functions; a queryset
`filter(is_matched=False)` becomes a `List.filter` over the current state,
re-evaluated at each use exactly as Django re-queries.
-/

namespace Astraea

/-- One parsed ledger row (`reconciliation.models.LedgerRecord`).
`date` is the day number of the `DateField`, `amount` the `Decimal` value. -/
structure LedgerRecord where
  id : Nat
  date : Int
  description : String
  amount : ℚ
  rowNumber : Nat
  isMatched : Bool
  matchConfidence : Option ℚ
  deriving Repr, DecidableEq

/-- One parsed bank-statement row (`reconciliation.models.BankRecord`). -/
structure BankRecord where
  id : Nat
  date : Int
  description : String
  amount : ℚ
  rowNumber : Nat
  isMatched : Bool
  matchConfidence : Option ℚ
  deriving Repr, DecidableEq

/-- A created match (`reconciliation.models.TransactionMatch`). -/
structure TransactionMatch where
  ledgerId : Nat
  bankId : Nat
  matchType : String
  confidenceScore : ℚ
  dateDifferenceDays : Int
  amountDifference : ℚ
  deriving Repr, DecidableEq

/-- An exception row (`reconciliation.models.ReconciliationException`). -/
structure ReconciliationException where
  exceptionType : String
  ledgerId : Option Nat
  bankId : Option Nat
  description : String
  severity : String
  deriving Repr, DecidableEq

/-- The session-owned database state the matching task reads and writes. -/
structure MatchState where
  ledgers : List LedgerRecord
  banks : List BankRecord
  txMatches : List TransactionMatch
  deriving Repr, DecidableEq

/-- Session counters recomputed by `update_session_statistics`. -/
structure SessionStats where
  totalLedgerRecords : Nat
  totalBankRecords : Nat
  matchedRecords : Nat
  unmatchedLedgerRecords : Nat
  unmatchedBankRecords : Nat
  deriving Repr, DecidableEq

/-! ### Description similarity (`calculate_description_similarity`) -/

/-- Characters kept by `re.sub(r'[^\w\s]', '', ...)`: word characters
(alphanumeric or underscore) and whitespace. -/
def isWordOrSpace (c : Char) : Bool :=
  c.isAlphanum || c = '_' || c.isWhitespace

/-- Lowercase then drop punctuation, as in
`re.sub(r'[^\w\s]', '', desc.lower())`. -/
def cleanDesc (s : String) : List Char :=
  (s.toList.map Char.toLower).filter isWordOrSpace

/-- Helper for whitespace tokenization; `acc` holds the current word reversed. -/
def splitWordsAux : List Char → List Char → List String
  | [], acc => if acc.isEmpty then [] else [String.mk acc.reverse]
  | c :: rest, acc =>
      if c.isWhitespace then
        if acc.isEmpty then splitWordsAux rest []
        else String.mk acc.reverse :: splitWordsAux rest []
      else splitWordsAux rest (c :: acc)

/-- Python `str.split()`: split on whitespace runs, no empty tokens. -/
def splitWords (cs : List Char) : List String :=
  splitWordsAux cs []

/-- Word set of a description, `set(desc_clean.split())`, as a deduplicated
list. -/
def wordSet (s : String) : List String :=
  (splitWords (cleanDesc s)).dedup

/-- `calculate_description_similarity` (tasks.py:337-358): Jaccard similarity
of the two word sets, 0 when either set is empty. -/
def calculate_description_similarity (desc1 desc2 : String) : ℚ :=
  let words1 := wordSet desc1
  let words2 := wordSet desc2
  if words1.isEmpty || words2.isEmpty then 0
  else
    let intersection := (words1.filter (fun w => w ∈ words2)).length
    let union := (words1 ++ words2.filter (fun w => w ∉ words1)).length
    if union = 0 then 0
    else (intersection : ℚ) / (union : ℚ)

/-! ### Match scoring (`calculate_match_score`) -/

/-- `calculate_match_score` (tasks.py:308-334).  `dateTolerance` is
`session.date_tolerance_days` (the `.days` of the timedelta), `amountTolerance`
is `session.amount_tolerance`. -/
def calculate_match_score (ledger : LedgerRecord) (bank : BankRecord)
    (dateTolerance : Int) (amountTolerance : ℚ) : ℚ :=
  let dateDiff : Int := |ledger.date - bank.date|
  let score1 : ℚ :=
    if dateDiff = 0 then 3/10
    else if dateDiff ≤ dateTolerance then
      (3/10) * (1 - (dateDiff : ℚ) / ((dateTolerance : ℚ) + 1))
    else 0
  let amountDiff : ℚ := |ledger.amount - bank.amount|
  let score2 : ℚ :=
    if amountDiff = 0 then 2/5
    else if amountDiff ≤ amountTolerance then
      (2/5) * (1 - amountDiff / (amountTolerance + 1/100))
    else 0
  let descScore := calculate_description_similarity ledger.description bank.description
  min (score1 + score2 + (3/10) * descScore) 1

/-! ### The matching engine (`perform_transaction_matching`) -/

/-- Accumulator of the inner candidate loop (tasks.py:253-268):
`best` and `bestScore` mirror `best_match` / `best_score`; `lastScore`
mirrors the Python loop variable `score`, which after the loop still holds
the score computed for the *last* candidate iterated. -/
structure InnerAcc where
  best : Option BankRecord
  bestScore : ℚ
  lastScore : ℚ
  deriving Repr, DecidableEq

/-- One iteration of the inner `for bank_record in bank_records.filter(...)`
loop: keep the candidate iff its score strictly beats the running best and
meets the 0.7 minimum-confidence threshold. -/
def innerStep (ledger : LedgerRecord) (dateTolerance : Int) (amountTolerance : ℚ)
    (acc : InnerAcc) (bank : BankRecord) : InnerAcc :=
  let score := calculate_match_score ledger bank dateTolerance amountTolerance
  if score > acc.bestScore ∧ score ≥ 7/10 then
    { best := some bank, bestScore := score, lastScore := score }
  else
    { acc with lastScore := score }

/-- The inner loop over the currently unmatched bank records: the queryset
`bank_records.filter(is_matched=False)` is re-evaluated against the current
state each time the outer loop reaches it. -/
def findBest (ledger : LedgerRecord) (dateTolerance : Int) (amountTolerance : ℚ)
    (banks : List BankRecord) : InnerAcc :=
  (banks.filter (fun b => !b.isMatched)).foldl
    (innerStep ledger dateTolerance amountTolerance)
    { best := none, bestScore := 0, lastScore := 0 }

/-- Mark the bank record with the given id as matched with the given
confidence (`best_match.is_matched = True; best_match.match_confidence = ...`,
persisted by `best_match.save()`). -/
def markBankMatched (banks : List BankRecord) (bankId : Nat) (confidence : ℚ) :
    List BankRecord :=
  banks.map (fun b =>
    if b.id = bankId then { b with isMatched := true, matchConfidence := some confidence }
    else b)

/-- Mark the ledger record with the given id as matched
(`ledger_record.is_matched = True; ...; ledger_record.save()`). -/
def markLedgerMatched (ledgers : List LedgerRecord) (ledgerId : Nat) (confidence : ℚ) :
    List LedgerRecord :=
  ledgers.map (fun l =>
    if l.id = ledgerId then { l with isMatched := true, matchConfidence := some confidence }
    else l)

/-- One iteration of the outer `for ledger_record in ledger_records` loop
(tasks.py:253-303).  When a best match exists, the match row is created with
`confidence_score = best_score` but — exactly as in the source — the
`match_type` classification reads the leftover loop variable `score`
(the last candidate's score), not `best_score`. -/
def processLedgerRecord (dateTolerance : Int) (amountTolerance : ℚ)
    (st : MatchState) (ledger : LedgerRecord) : MatchState :=
  let acc := findBest ledger dateTolerance amountTolerance st.banks
  match acc.best with
  | none => st
  | some bank =>
      let dateDiff : Int := |ledger.date - bank.date|
      let amountDiff : ℚ := |ledger.amount - bank.amount|
      let matchType : String :=
        if acc.lastScore ≥ 95/100 then "exact"
        else if acc.lastScore ≥ 4/5 then "partial"
        else "partial"
      let m : TransactionMatch :=
        { ledgerId := ledger.id
          bankId := bank.id
          matchType := matchType
          confidenceScore := acc.bestScore
          dateDifferenceDays := dateDiff
          amountDifference := amountDiff }
      { ledgers := markLedgerMatched st.ledgers ledger.id acc.bestScore
        banks := markBankMatched st.banks bank.id acc.bestScore
        txMatches := st.txMatches ++ [m] }

/-- `perform_transaction_matching` (tasks.py:246-305): greedy pass over the
given ledger records, threading the session state. -/
def perform_transaction_matching (dateTolerance : Int) (amountTolerance : ℚ)
    (ledgerRecords : List LedgerRecord) (st : MatchState) : MatchState :=
  ledgerRecords.foldl (processLedgerRecord dateTolerance amountTolerance) st

/-! ### Queryset ordering

`LedgerRecord.Meta.ordering = ['date', 'amount']` and likewise for
`BankRecord` (models.py:92-93 and 127-128): every unordered queryset over
these models is returned sorted ascending by `(date, amount)` — not by
`row_number`. -/

/-- The `Meta.ordering = ['date', 'amount']` comparison for ledger records. -/
def ledgerLe (a b : LedgerRecord) : Bool :=
  a.date < b.date || (a.date = b.date && a.amount ≤ b.amount)

/-- The `Meta.ordering = ['date', 'amount']` comparison for bank records. -/
def bankLe (a b : BankRecord) : Bool :=
  a.date < b.date || (a.date = b.date && a.amount ≤ b.amount)

/-- Insert into a sorted list (stable insertion sort step). -/
def insertLe {α : Type} (le : α → α → Bool) (a : α) : List α → List α
  | [] => [a]
  | b :: rest => if le a b then a :: b :: rest else b :: insertLe le a rest

/-- Stable insertion sort, modelling the SQL `ORDER BY date, amount`. -/
def sortLe {α : Type} (le : α → α → Bool) : List α → List α
  | [] => []
  | a :: rest => insertLe le a (sortLe le rest)

/-- `session.ledger_records.filter(is_matched=False)` as evaluated by the
ORM: the unmatched ledger records in `(date, amount)` order. -/
def ledgerQueryset (st : MatchState) : List LedgerRecord :=
  sortLe ledgerLe (st.ledgers.filter (fun l => !l.isMatched))

/-- `start_reconciliation_matching`, success path (tasks.py:62-113):
order the bank rows as the ORM does, then run the greedy pass over the
unmatched ledger queryset.  Returns the state after `perform_transaction_matching`. -/
def runMatching (dateTolerance : Int) (amountTolerance : ℚ) (st : MatchState) :
    MatchState :=
  let st0 : MatchState := { st with banks := sortLe bankLe st.banks }
  perform_transaction_matching dateTolerance amountTolerance (ledgerQueryset st) st0

/-- Models the failure path of `start_reconciliation_matching`
(tasks.py:106-113): an unexpected exception raised after `k` ledger records
have been processed lands in the `except Exception` handler, which sets
`session.status = 'failed'`.  Because `perform_transaction_matching` creates
each `TransactionMatch` and saves each record immediately (no
`transaction.atomic` anywhere in tasks.py), the database state at that point
is the fold over the first `k` ledger records; the handler rolls nothing
back. -/
def abortedRun (dateTolerance : Int) (amountTolerance : ℚ) (st : MatchState)
    (k : Nat) : MatchState × String :=
  let st0 : MatchState := { st with banks := sortLe bankLe st.banks }
  (perform_transaction_matching dateTolerance amountTolerance
      ((ledgerQueryset st).take k) st0,
   "failed")

/-! ### Exceptions and statistics -/

/-- `create_exception_records` (tasks.py:361-384): one `unmatched_ledger`
exception per unmatched ledger record, then one `unmatched_bank` exception
per unmatched bank record; `severity='medium'`, description built from the
first 100 characters of the record's description. -/
def create_exception_records (st : MatchState) : List ReconciliationException :=
  (st.ledgers.filter (fun l => !l.isMatched)).map (fun record =>
    { exceptionType := "unmatched_ledger"
      ledgerId := some record.id
      bankId := none
      description := "Unmatched ledger transaction: " ++ record.description.take 100
      severity := "medium" })
  ++ (st.banks.filter (fun b => !b.isMatched)).map (fun record =>
    { exceptionType := "unmatched_bank"
      ledgerId := none
      bankId := some record.id
      description := "Unmatched bank transaction: " ++ record.description.take 100
      severity := "medium" })

/-- The shape claimed for the exception emitted for an unmatched ledger
record: correct type, reference to the record, `medium` severity, and a
description built from at most 100 characters of the record's description. -/
def ledgerExceptionFor (l : LedgerRecord) (e : ReconciliationException) : Bool :=
  decide (e.exceptionType = "unmatched_ledger") && decide (e.ledgerId = some l.id)
    && decide (e.severity = "medium")
    && decide (e.description = "Unmatched ledger transaction: " ++ l.description.take 100)

/-- Bank-side analogue of `ledgerExceptionFor`. -/
def bankExceptionFor (b : BankRecord) (e : ReconciliationException) : Bool :=
  decide (e.exceptionType = "unmatched_bank") && decide (e.bankId = some b.id)
    && decide (e.severity = "medium")
    && decide (e.description = "Unmatched bank transaction: " ++ b.description.take 100)

/-- `update_session_statistics` (tasks.py:387-393), with the session's
`total_*` counters (set by `process_reconciliation_files` to the number of
parsed records) passed through unchanged. -/
def update_session_statistics (st : MatchState)
    (totalLedger totalBank : Nat) : SessionStats :=
  { totalLedgerRecords := totalLedger
    totalBankRecords := totalBank
    matchedRecords := st.txMatches.length
    unmatchedLedgerRecords := (st.ledgers.filter (fun l => !l.isMatched)).length
    unmatchedBankRecords := (st.banks.filter (fun b => !b.isMatched)).length }

/-! ### Amount normalization (`parse_amount`) -/

/-- Characters removed by `re.sub(r'[$£€¥,\s]', '', amount_str)`. -/
def currencyOrSep (c : Char) : Bool :=
  c = '$' || c = '£' || c = '€' || c = '¥' || c = ',' || c.isWhitespace

/-- Decimal digit test. -/
def isDigitChar (c : Char) : Bool :=
  '0' ≤ c && c ≤ '9'

/-- Value of a digit string read most-significant first. -/
def digitsVal (cs : List Char) : Nat :=
  cs.foldl (fun n c => 10 * n + (c.toNat - 48)) 0

/-- Unsigned part of Python `decimal.Decimal`'s numeric-string syntax,
restricted to the plain forms `digits`, `digits.digits`, `digits.` and
`.digits` (exponent forms, `NaN` and `Infinity` are accepted by `Decimal`
but cannot arise from the amount strings this parser receives). -/
def parseDecimalDigits? (cs : List Char) : Option ℚ :=
  let intPart := cs.takeWhile isDigitChar
  let rest := cs.dropWhile isDigitChar
  match rest with
  | [] => if intPart.isEmpty then none else some (digitsVal intPart : ℚ)
  | '.' :: frac =>
      if frac.all isDigitChar && !(intPart.isEmpty && frac.isEmpty) then
        some ((digitsVal intPart : ℚ) + (digitsVal frac : ℚ) / (10 ^ frac.length : ℚ))
      else none
  | _ => none

/-- `decimal.Decimal(str)` on a cleaned amount string: optional sign then
an unsigned decimal literal; `none` models the `InvalidOperation` raised on
anything else (caught by `except` in `parse_amount`). -/
def parseDecimal? : List Char → Option ℚ
  | '-' :: rest => (parseDecimalDigits? rest).map (fun q => -q)
  | '+' :: rest => parseDecimalDigits? rest
  | cs => parseDecimalDigits? cs

/-- The character-level normalization of `parse_amount`: strip currency
symbols, thousands separators and whitespace (`re.sub(r'[$£€¥,\s]', '', ...)`
after `str.strip()`), then rewrite accounting parentheses to a leading
minus. -/
def cleanAmountChars (s : String) : List Char :=
  let cs := s.toList.filter (fun c => !currencyOrSep c)
  if cs.head? = some '(' && cs.getLast? = some ')' then
    '-' :: (cs.drop 1).dropLast
  else cs

/-- `parse_amount` (tasks.py:434-455) on a string input: normalize the
characters, parse as `Decimal`, with `Decimal('0.00')` on failure. -/
def parse_amount (s : String) : ℚ :=
  match parseDecimal? (cleanAmountChars s) with
  | some q => q
  | none => 0

/-- The row filter of `process_ledger_file` (tasks.py:156): a row is kept
only when the date parsed, the parsed amount is nonzero, and the stripped
description is nonempty (`if date_value and amount_value != 0 and
description_value`). -/
def keepLedgerRow (dateValue : Option Int) (amountStr : String)
    (rawDescription : String) : Bool :=
  dateValue.isSome && decide (parse_amount amountStr ≠ 0)
    && decide (rawDescription.trim ≠ "")

/-! ### The scorer as the specification words it -/

/-- Modelled from the spec: §4.2 "Similarity Scorer" describes the score as
a weighted sum with weights date 0.30, amount 0.40, description 0.30, where
the date and amount components decay linearly within tolerance (denominators
`tolerance+1` and `tolerance+0.01`), are 0 beyond tolerance and give full
weight at zero difference, the description component is weight times the
Jaccard similarity of the word sets, and the sum is clamped to at most 1.0.
Written from those words (single decay formula per component, which yields
full weight at zero difference), to be compared with
`calculate_match_score` as translated from the code. -/
def score_spec (ledger : LedgerRecord) (bank : BankRecord)
    (dateTolerance : Int) (amountTolerance : ℚ) : ℚ :=
  let dateDiff : ℚ := ((|ledger.date - bank.date| : ℤ) : ℚ)
  let dateComponent : ℚ :=
    if dateDiff ≤ (dateTolerance : ℚ) then
      (30/100) * (1 - dateDiff / ((dateTolerance : ℚ) + 1))
    else 0
  let amountDiff : ℚ := |ledger.amount - bank.amount|
  let amountComponent : ℚ :=
    if amountDiff ≤ amountTolerance then
      (40/100) * (1 - amountDiff / (amountTolerance + 1/100))
    else 0
  let descComponent : ℚ :=
    (30/100) * calculate_description_similarity ledger.description bank.description
  min (dateComponent + amountComponent + descComponent) 1

/-! ## Supporting lemmas -/

theorem insertLe_perm {α : Type} (le : α → α → Bool) (a : α) (xs : List α) :
    (insertLe le a xs).Perm (a :: xs) := by
  induction xs with
  | nil => simp [insertLe]
  | cons b rest ih =>
      by_cases h : le a b
      · simp [insertLe, h]
      · simpa [insertLe, h] using (ih.cons b).trans (List.Perm.swap a b rest)

theorem sortLe_perm {α : Type} (le : α → α → Bool) (xs : List α) :
    (sortLe le xs).Perm xs := by
  induction xs with
  | nil => simp [sortLe]
  | cons a rest ih => exact (insertLe_perm le a _).trans (ih.cons a)

theorem markLedgerMatched_map_id (ls : List LedgerRecord) (i : Nat) (s : ℚ) :
    (markLedgerMatched ls i s).map LedgerRecord.id = ls.map LedgerRecord.id := by
  unfold markLedgerMatched
  rw [List.map_map]
  apply List.map_congr_left
  intro x _
  by_cases h : x.id = i <;> simp [h]

theorem markBankMatched_map_id (bs : List BankRecord) (i : Nat) (s : ℚ) :
    (markBankMatched bs i s).map BankRecord.id = bs.map BankRecord.id := by
  unfold markBankMatched
  rw [List.map_map]
  apply List.map_congr_left
  intro x _
  by_cases h : x.id = i <;> simp [h]

theorem foldl_innerStep_bestScore (ledger : LedgerRecord) (dt : Int) (tol : ℚ)
    (cs : List BankRecord) :
    ∀ (acc : InnerAcc),
      (∀ b, acc.best = some b → 7/10 ≤ acc.bestScore ∧
        acc.bestScore = calculate_match_score ledger b dt tol) →
      ∀ b, (cs.foldl (innerStep ledger dt tol) acc).best = some b →
        7/10 ≤ (cs.foldl (innerStep ledger dt tol) acc).bestScore ∧
        (cs.foldl (innerStep ledger dt tol) acc).bestScore
          = calculate_match_score ledger b dt tol := by
  induction cs with
  | nil => intro acc h b hb; exact h b hb
  | cons c rest ih =>
      intro acc h b hb
      simp only [List.foldl_cons] at hb ⊢
      refine ih (innerStep ledger dt tol acc c) ?_ b hb
      intro b' hb'
      unfold innerStep at hb' ⊢
      by_cases hc : calculate_match_score ledger c dt tol > acc.bestScore ∧
          calculate_match_score ledger c dt tol ≥ 7/10
      · simp only [if_pos hc] at hb' ⊢
        cases hb'
        exact ⟨hc.2, rfl⟩
      · simp only [if_neg hc] at hb' ⊢
        exact h b' hb'

theorem foldl_innerStep_mem (ledger : LedgerRecord) (dt : Int) (tol : ℚ)
    (cs : List BankRecord) :
    ∀ (acc : InnerAcc) (b : BankRecord),
      (cs.foldl (innerStep ledger dt tol) acc).best = some b →
      acc.best = some b ∨ b ∈ cs := by
  induction cs with
  | nil => intro acc b hb; exact Or.inl hb
  | cons c rest ih =>
      intro acc b hb
      simp only [List.foldl_cons] at hb
      rcases ih (innerStep ledger dt tol acc c) b hb with h | h
      · unfold innerStep at h
        by_cases hc : calculate_match_score ledger c dt tol > acc.bestScore ∧
            calculate_match_score ledger c dt tol ≥ 7/10
        · simp only [if_pos hc] at h
          cases h
          exact Or.inr (List.mem_cons_self c rest)
        · simp only [if_neg hc] at h
          exact Or.inl h
      · exact Or.inr (List.mem_cons_of_mem c h)

theorem foldl_innerStep_below (ledger : LedgerRecord) (dt : Int) (tol : ℚ)
    (cs : List BankRecord) :
    ∀ (acc : InnerAcc),
      (∀ b ∈ cs, calculate_match_score ledger b dt tol < 7/10) →
      (cs.foldl (innerStep ledger dt tol) acc).best = acc.best ∧
      (cs.foldl (innerStep ledger dt tol) acc).bestScore = acc.bestScore := by
  induction cs with
  | nil => intro acc _; exact ⟨rfl, rfl⟩
  | cons c rest ih =>
      intro acc h
      simp only [List.foldl_cons]
      have hc : ¬(calculate_match_score ledger c dt tol > acc.bestScore ∧
          calculate_match_score ledger c dt tol ≥ 7/10) := by
        rintro ⟨-, hge⟩
        exact absurd hge (not_le.mpr (h c (List.mem_cons_self c rest)))
      have hstep : innerStep ledger dt tol acc c
          = { acc with lastScore := calculate_match_score ledger c dt tol } := by
        unfold innerStep
        rw [if_neg hc]
      rw [hstep]
      exact ih _ (fun b hb => h b (List.mem_cons_of_mem c hb))

theorem findBest_some_score (ledger : LedgerRecord) (dt : Int) (tol : ℚ)
    (banks : List BankRecord) (b : BankRecord)
    (h : (findBest ledger dt tol banks).best = some b) :
    7/10 ≤ (findBest ledger dt tol banks).bestScore ∧
    (findBest ledger dt tol banks).bestScore = calculate_match_score ledger b dt tol := by
  unfold findBest at h ⊢
  exact foldl_innerStep_bestScore ledger dt tol _ _ (by intro b' hb'; cases hb') b h

theorem findBest_some_mem (ledger : LedgerRecord) (dt : Int) (tol : ℚ)
    (banks : List BankRecord) (b : BankRecord)
    (h : (findBest ledger dt tol banks).best = some b) :
    b ∈ banks ∧ b.isMatched = false := by
  unfold findBest at h
  rcases foldl_innerStep_mem ledger dt tol _ _ b h with h' | h'
  · cases h'
  · have := List.mem_filter.mp h'
    exact ⟨this.1, by simpa using this.2⟩

theorem perform_txMatches_extend (dt : Int) (tol : ℚ) :
    ∀ (ls : List LedgerRecord) (st : MatchState),
      ∃ rest, (perform_transaction_matching dt tol ls st).txMatches
        = st.txMatches ++ rest := by
  intro ls
  induction ls with
  | nil => exact fun st => ⟨[], by simp [perform_transaction_matching]⟩
  | cons l rest ih =>
      intro st
      have hstep : ∃ r0, (processLedgerRecord dt tol st l).txMatches
          = st.txMatches ++ r0 := by
        unfold processLedgerRecord
        rcases hfb : (findBest l dt tol st.banks).best with - | bank
        · simp only [hfb]
          exact ⟨[], by simp⟩
        · simp only [hfb]
          exact ⟨_, rfl⟩
      obtain ⟨r0, hr0⟩ := hstep
      obtain ⟨r1, hr1⟩ := ih (processLedgerRecord dt tol st l)
      refine ⟨r0 ++ r1, ?_⟩
      have hfold : perform_transaction_matching dt tol (l :: rest) st
          = perform_transaction_matching dt tol rest (processLedgerRecord dt tol st l) := by
        simp [perform_transaction_matching]
      rw [hfold, hr1, hr0, List.append_assoc]

/-! ## Claims -/

/-- C1: the claim that `confidence_score ≥ 0.95` forces `match_type = exact`
fails on the code: here the engine records `confidence_score = 1` on the
created match yet classifies it `"partial"`, because tasks.py:277 reads the
leftover inner-loop variable `score` (the score of the last candidate
iterated, 0 for the second bank row) instead of `best_score`. -/
theorem C1_classification_divergence :
    ((runMatching 0 0
      { ledgers := [⟨1, 0, "a", 100, 1, false, none⟩]
        banks := [⟨1, 0, "a", 100, 1, false, none⟩, ⟨2, 30, "z", 999, 2, false, none⟩]
        txMatches := [] }).txMatches.map (fun m => (m.confidenceScore, m.matchType)))
      = [(1, "partial")] ∧ (95/100 : ℚ) ≤ 1 := by
  constructor
  · norm_num +decide [runMatching, perform_transaction_matching, processLedgerRecord,
      findBest, innerStep, markLedgerMatched, markBankMatched, ledgerQueryset, sortLe,
      insertLe, ledgerLe, bankLe, calculate_match_score, calculate_description_similarity,
      wordSet, cleanDesc, splitWords, splitWordsAux, isWordOrSpace]
  · norm_num

/-- C2 counterexample: two ledger records (row numbers 1 and 2) both score
at least 0.70 against the single bank record, but the engine — which
iterates the ledger queryset in the model `Meta.ordering = ['date',
'amount']`, not in row-number order — lets the row-2 record (earlier date)
claim the match, and the row-1 record stays unmatched, contradicting the
claim that the lower row number wins. -/
theorem C2_counterexample :
    (7/10 : ℚ) ≤ calculate_match_score ⟨1, 10, "a", 100, 1, false, none⟩
      ⟨1, 9, "a", 100, 1, false, none⟩ 2 0 ∧
    (7/10 : ℚ) ≤ calculate_match_score ⟨2, 9, "a", 100, 2, false, none⟩
      ⟨1, 9, "a", 100, 1, false, none⟩ 2 0 ∧
    ((runMatching 2 0
      { ledgers := [⟨1, 10, "a", 100, 1, false, none⟩, ⟨2, 9, "a", 100, 2, false, none⟩]
        banks := [⟨1, 9, "a", 100, 1, false, none⟩]
        txMatches := [] }).txMatches.map (fun m => m.ledgerId)) = [2] ∧
    ((runMatching 2 0
      { ledgers := [⟨1, 10, "a", 100, 1, false, none⟩, ⟨2, 9, "a", 100, 2, false, none⟩]
        banks := [⟨1, 9, "a", 100, 1, false, none⟩]
        txMatches := [] }).ledgers.map (fun l => (l.rowNumber, l.isMatched)))
      = [(1, false), (2, true)] := by
  refine ⟨?_, ?_, ?_, ?_⟩ <;>
    norm_num +decide [runMatching, perform_transaction_matching, processLedgerRecord,
      findBest, innerStep, markLedgerMatched, markBankMatched, ledgerQueryset, sortLe,
      insertLe, ledgerLe, bankLe, calculate_match_score, calculate_description_similarity,
      wordSet, cleanDesc, splitWords, splitWordsAux, isWordOrSpace]

/-- C2 amended: the engine processes the unmatched ledger records in the
queryset's default order, which the model declares as ascending
`(date, amount)` (`Meta.ordering = ['date', 'amount']`), not row number;
when two unmatched ledger records could each match the same single unmatched
bank record at or above the 0.70 threshold, the ledger record that comes
first in `(date, amount)` order claims the match and the other remains
unmatched. -/
theorem C2_date_amount_order (dt : Int) (tol : ℚ) (l1 l2 : LedgerRecord) (b : BankRecord)
    (hord : ledgerLe l1 l2 = true)
    (h1 : l1.isMatched = false) (h2 : l2.isMatched = false) (hb : b.isMatched = false)
    (hid : l1.id ≠ l2.id)
    (hs1 : 7/10 ≤ calculate_match_score l1 b dt tol)
    (hs2 : 7/10 ≤ calculate_match_score l2 b dt tol) :
    ((runMatching dt tol { ledgers := [l1, l2], banks := [b], txMatches := [] }).txMatches.map
      (fun m => m.ledgerId)) = [l1.id] ∧
    ((runMatching dt tol { ledgers := [l1, l2], banks := [b], txMatches := [] }).ledgers.map
      (fun l => (l.id, l.isMatched))) = [(l1.id, true), (l2.id, false)] := by
  have hpos : (0:ℚ) < calculate_match_score l1 b dt tol := lt_of_lt_of_le (by norm_num) hs1
  have hid' : l2.id ≠ l1.id := Ne.symm hid
  have hfb1 : findBest l1 dt tol [b]
      = { best := some b, bestScore := calculate_match_score l1 b dt tol,
          lastScore := calculate_match_score l1 b dt tol } := by
    simp only [findBest, List.filter_cons, List.filter_nil, hb, Bool.not_false, if_true,
      List.foldl_cons, List.foldl_nil, innerStep]
    split
    · rfl
    · next hc => exact absurd ⟨hpos, hs1⟩ hc
  have hq : ledgerQueryset { ledgers := [l1, l2], banks := [b], txMatches := [] } = [l1, l2] := by
    simp [ledgerQueryset, h1, h2, sortLe, insertLe, hord]
  have hrun : runMatching dt tol { ledgers := [l1, l2], banks := [b], txMatches := [] }
      = processLedgerRecord dt tol
          (processLedgerRecord dt tol { ledgers := [l1, l2], banks := [b], txMatches := [] } l1) l2 := by
    simp [runMatching, hq, perform_transaction_matching, sortLe, insertLe]
  have hstep1 : processLedgerRecord dt tol { ledgers := [l1, l2], banks := [b], txMatches := [] } l1
      = { ledgers := [⟨l1.id, l1.date, l1.description, l1.amount, l1.rowNumber, true, some (calculate_match_score l1 b dt tol)⟩, l2],
          banks := [⟨b.id, b.date, b.description, b.amount, b.rowNumber, true, some (calculate_match_score l1 b dt tol)⟩],
          txMatches := [⟨l1.id, b.id,
            if (95/100 : ℚ) ≤ calculate_match_score l1 b dt tol then "exact"
              else if (4/5 : ℚ) ≤ calculate_match_score l1 b dt tol then "partial" else "partial",
            calculate_match_score l1 b dt tol, |l1.date - b.date|, |l1.amount - b.amount|⟩] } := by
    simp only [processLedgerRecord, hfb1, markLedgerMatched, markBankMatched]
    simp [hid']
  have hstep2 : processLedgerRecord dt tol
      { ledgers := [⟨l1.id, l1.date, l1.description, l1.amount, l1.rowNumber, true, some (calculate_match_score l1 b dt tol)⟩, l2],
        banks := [⟨b.id, b.date, b.description, b.amount, b.rowNumber, true, some (calculate_match_score l1 b dt tol)⟩],
        txMatches := [⟨l1.id, b.id,
          if (95/100 : ℚ) ≤ calculate_match_score l1 b dt tol then "exact"
            else if (4/5 : ℚ) ≤ calculate_match_score l1 b dt tol then "partial" else "partial",
          calculate_match_score l1 b dt tol, |l1.date - b.date|, |l1.amount - b.amount|⟩] } l2
      = { ledgers := [⟨l1.id, l1.date, l1.description, l1.amount, l1.rowNumber, true, some (calculate_match_score l1 b dt tol)⟩, l2],
          banks := [⟨b.id, b.date, b.description, b.amount, b.rowNumber, true, some (calculate_match_score l1 b dt tol)⟩],
          txMatches := [⟨l1.id, b.id,
            if (95/100 : ℚ) ≤ calculate_match_score l1 b dt tol then "exact"
              else if (4/5 : ℚ) ≤ calculate_match_score l1 b dt tol then "partial" else "partial",
            calculate_match_score l1 b dt tol, |l1.date - b.date|, |l1.amount - b.amount|⟩] } := by
    simp [processLedgerRecord, findBest]
  rw [hrun, hstep1, hstep2]
  simp [h2]

/-- Witness for C2 amended: a concrete instance where the `(date, amount)`
earlier ledger record (which has the higher row number) claims the single
bank record. -/
theorem C2_date_amount_order_witness :
    ((runMatching 2 0
      { ledgers := [⟨1, 5, "a", 100, 3, false, none⟩, ⟨2, 6, "a", 100, 1, false, none⟩]
        banks := [⟨1, 5, "a", 100, 1, false, none⟩]
        txMatches := [] }).txMatches.map (fun m => m.ledgerId)) = [1] ∧
    ((runMatching 2 0
      { ledgers := [⟨1, 5, "a", 100, 3, false, none⟩, ⟨2, 6, "a", 100, 1, false, none⟩]
        banks := [⟨1, 5, "a", 100, 1, false, none⟩]
        txMatches := [] }).ledgers.map
      (fun l => (l.id, l.isMatched))) = [(1, true), (2, false)] :=
  C2_date_amount_order 2 0 ⟨1, 5, "a", 100, 3, false, none⟩ ⟨2, 6, "a", 100, 1, false, none⟩
    ⟨1, 5, "a", 100, 1, false, none⟩ (by decide) rfl rfl rfl (by decide)
    (by norm_num +decide [calculate_match_score, calculate_description_similarity, wordSet,
      cleanDesc, splitWords, splitWordsAux, isWordOrSpace])
    (by norm_num +decide [calculate_match_score, calculate_description_similarity, wordSet,
      cleanDesc, splitWords, splitWordsAux, isWordOrSpace])

/-- C3 counterexample: starting from a fresh two-by-two session, a run
aborted by an exception after the first ledger record leaves the session
marked `failed` while one match created by the aborted pass — and the
`is_matched` flags it set — remain persisted, so the post-abort state is
neither a full update (the completed run makes two matches) nor free of
mutations from the aborted pass: tasks.py has no `transaction.atomic`
around the matching pass. -/
theorem C3_counterexample :
    (abortedRun 0 0
      { ledgers := [⟨1, 0, "a", 100, 1, false, none⟩, ⟨2, 1, "b", 200, 2, false, none⟩]
        banks := [⟨1, 0, "a", 100, 1, false, none⟩, ⟨2, 1, "b", 200, 2, false, none⟩]
        txMatches := [] } 1).2 = "failed" ∧
    (abortedRun 0 0
      { ledgers := [⟨1, 0, "a", 100, 1, false, none⟩, ⟨2, 1, "b", 200, 2, false, none⟩]
        banks := [⟨1, 0, "a", 100, 1, false, none⟩, ⟨2, 1, "b", 200, 2, false, none⟩]
        txMatches := [] } 1).1.txMatches.length = 1 ∧
    ((abortedRun 0 0
      { ledgers := [⟨1, 0, "a", 100, 1, false, none⟩, ⟨2, 1, "b", 200, 2, false, none⟩]
        banks := [⟨1, 0, "a", 100, 1, false, none⟩, ⟨2, 1, "b", 200, 2, false, none⟩]
        txMatches := [] } 1).1.ledgers.map (fun l => l.isMatched)) = [true, false] ∧
    (runMatching 0 0
      { ledgers := [⟨1, 0, "a", 100, 1, false, none⟩, ⟨2, 1, "b", 200, 2, false, none⟩]
        banks := [⟨1, 0, "a", 100, 1, false, none⟩, ⟨2, 1, "b", 200, 2, false, none⟩]
        txMatches := [] }).txMatches.length = 2 := by
  refine ⟨rfl, ?_, ?_, ?_⟩ <;>
    norm_num +decide [abortedRun, runMatching, perform_transaction_matching,
      processLedgerRecord, findBest, innerStep, markLedgerMatched, markBankMatched,
      ledgerQueryset, sortLe, insertLe, ledgerLe, bankLe, calculate_match_score,
      calculate_description_similarity, wordSet, cleanDesc, splitWords, splitWordsAux,
      isWordOrSpace]

/-- C3 amended: a hard failure mid-pass sets the session status to `failed`,
but the matches persisted before the abort point are not rolled back: the
match list of a longer (or completed) run extends the match list present at
any earlier abort point. -/
theorem C3_failed_status_partial_persistence (dt : Int) (tol : ℚ) (st : MatchState)
    (j k : Nat) (h : j ≤ k) :
    (abortedRun dt tol st j).2 = "failed" ∧
    (abortedRun dt tol st k).1.txMatches.take
        ((abortedRun dt tol st j).1.txMatches.length)
      = (abortedRun dt tol st j).1.txMatches := by
  refine ⟨rfl, ?_⟩
  have hsplit : (ledgerQueryset st).take k
      = (ledgerQueryset st).take j ++ ((ledgerQueryset st).take k).drop j := by
    conv_lhs => rw [← List.take_append_drop j ((ledgerQueryset st).take k)]
    rw [List.take_take, min_eq_left h]
  have hcompose : ∀ (A B : List LedgerRecord) (s : MatchState),
      perform_transaction_matching dt tol (A ++ B) s
        = perform_transaction_matching dt tol B (perform_transaction_matching dt tol A s) := by
    intro A B s
    unfold perform_transaction_matching
    exact List.foldl_append _ _ _ _
  show (perform_transaction_matching dt tol ((ledgerQueryset st).take k)
      { st with banks := sortLe bankLe st.banks }).txMatches.take
      ((perform_transaction_matching dt tol ((ledgerQueryset st).take j)
        { st with banks := sortLe bankLe st.banks }).txMatches.length)
    = (perform_transaction_matching dt tol ((ledgerQueryset st).take j)
        { st with banks := sortLe bankLe st.banks }).txMatches
  rw [hsplit, hcompose]
  obtain ⟨rest, hrest⟩ := perform_txMatches_extend dt tol
    (((ledgerQueryset st).take k).drop j)
    (perform_transaction_matching dt tol ((ledgerQueryset st).take j)
      { st with banks := sortLe bankLe st.banks })
  rw [hrest, List.take_left]

/-- Witness for C3 amended, at a concrete state and abort points 1 ≤ 2. -/
theorem C3_failed_status_partial_persistence_witness :
    (abortedRun 0 0
      { ledgers := [⟨1, 0, "a", 100, 1, false, none⟩]
        banks := [⟨1, 0, "a", 100, 1, false, none⟩]
        txMatches := [] } 1).2 = "failed" ∧
    (abortedRun 0 0
      { ledgers := [⟨1, 0, "a", 100, 1, false, none⟩]
        banks := [⟨1, 0, "a", 100, 1, false, none⟩]
        txMatches := [] } 2).1.txMatches.take
        ((abortedRun 0 0
          { ledgers := [⟨1, 0, "a", 100, 1, false, none⟩]
            banks := [⟨1, 0, "a", 100, 1, false, none⟩]
            txMatches := [] } 1).1.txMatches.length)
      = (abortedRun 0 0
          { ledgers := [⟨1, 0, "a", 100, 1, false, none⟩]
            banks := [⟨1, 0, "a", 100, 1, false, none⟩]
            txMatches := [] } 1).1.txMatches :=
  C3_failed_status_partial_persistence 0 0
    { ledgers := [⟨1, 0, "a", 100, 1, false, none⟩]
      banks := [⟨1, 0, "a", 100, 1, false, none⟩]
      txMatches := [] } 1 2 (by decide)

/-- C9: amount normalization strips currency symbols, thousands separators
and whitespace; accounting-style parentheses negate the value
(`"(45.00)"` → `-45`, `"$1,234.56"` → `1234.56`); any input string whose
normalized characters fail to parse as a decimal yields exactly `0`; and a
ledger row whose amount parses to `0` (such as `"abc"`) is discarded by the
row filter of `process_ledger_file`. -/
theorem C9_amount_normalization :
    parse_amount "$1,234.56" = 123456/100 ∧
    parse_amount "(45.00)" = -45 ∧
    parse_amount "abc" = 0 ∧
    (∀ s : String, parseDecimal? (cleanAmountChars s) = none → parse_amount s = 0) ∧
    (∀ d : Option Int, keepLedgerRow d "abc" "Office Rent" = false) := by
  refine ⟨?_, ?_, ?_, ?_, ?_⟩
  · simp +decide [parse_amount, cleanAmountChars, parseDecimal?, parseDecimalDigits?,
      digitsVal, isDigitChar, currencyOrSep]
    norm_num
  · simp +decide [parse_amount, cleanAmountChars, parseDecimal?, parseDecimalDigits?,
      digitsVal, isDigitChar, currencyOrSep]
  · simp +decide [parse_amount, cleanAmountChars, parseDecimal?, parseDecimalDigits?,
      digitsVal, isDigitChar, currencyOrSep]
  · intro s hnone
    simp [parse_amount, hnone]
  · intro d
    simp +decide [keepLedgerRow, parse_amount, cleanAmountChars, parseDecimal?,
      parseDecimalDigits?, isDigitChar, currencyOrSep]

/-- Witness for C9: the universally quantified fallback applied to the
concrete unparseable string `"xy"`. -/
theorem C9_amount_normalization_witness : parse_amount "xy" = 0 :=
  C9_amount_normalization.2.2.2.1 "xy" (by decide)

/-- C4: in a pass starting with no pre-existing matches, every
`TransactionMatch` the engine produces has `confidence_score ≥ 0.70`; and a
ledger record whose score against every *currently unmatched* bank record
falls below 0.70 — banks already consumed earlier in the run do not count —
produces no match and leaves the state unchanged, so it remains unmatched
for the run. -/
theorem C4_minimum_confidence (dt : Int) (tol : ℚ) :
    (∀ (ls : List LedgerRecord) (st : MatchState), st.txMatches = [] →
      ∀ m ∈ (perform_transaction_matching dt tol ls st).txMatches,
        7/10 ≤ m.confidenceScore) ∧
    (∀ (l : LedgerRecord) (st : MatchState),
      (∀ b ∈ st.banks, b.isMatched = false → calculate_match_score l b dt tol < 7/10) →
      processLedgerRecord dt tol st l = st) := by
  have main : ∀ (ls : List LedgerRecord) (st : MatchState),
      (∀ m ∈ st.txMatches, 7/10 ≤ m.confidenceScore) →
      ∀ m ∈ (perform_transaction_matching dt tol ls st).txMatches,
        7/10 ≤ m.confidenceScore := by
    intro ls
    induction ls with
    | nil =>
        intro st h
        simpa [perform_transaction_matching] using h
    | cons l rest ih =>
        intro st h
        have hstep : ∀ m ∈ (processLedgerRecord dt tol st l).txMatches,
            7/10 ≤ m.confidenceScore := by
          unfold processLedgerRecord
          rcases hfb : (findBest l dt tol st.banks).best with - | bank
          · simp only [hfb]
            exact h
          · simp only [hfb]
            intro m hm
            simp only [List.mem_append, List.mem_singleton] at hm
            rcases hm with hm | hm
            · exact h m hm
            · subst hm
              exact (findBest_some_score l dt tol st.banks bank hfb).1
        have hfold : perform_transaction_matching dt tol (l :: rest) st
            = perform_transaction_matching dt tol rest (processLedgerRecord dt tol st l) := by
          simp [perform_transaction_matching]
        rw [hfold]
        exact ih _ hstep
  constructor
  · intro ls st h0
    exact main ls st (by simp [h0])
  · intro l st hall
    have hnone : (findBest l dt tol st.banks).best = none := by
      unfold findBest
      refine (foldl_innerStep_below l dt tol (st.banks.filter (fun b => !b.isMatched))
        { best := none, bestScore := 0, lastScore := 0 } ?_).1
      intro b hb
      obtain ⟨hbmem, hbum⟩ := List.mem_filter.mp hb
      exact hall b hbmem (by simpa using hbum)
    unfold processLedgerRecord
    simp only [hnone]

/-- Witness for C4: the single produced match of a concrete run carries
confidence 1 ≥ 0.70; and a mid-run state where the ledger record's only
high-scoring bank candidate is already consumed (`is_matched = true`) while
the remaining unmatched candidate scores 0 leaves the state unchanged. -/
theorem C4_minimum_confidence_witness :
    (7/10 : ℚ) ≤ (⟨1, 1, "exact", (1 : ℚ), 0, 0⟩ : TransactionMatch).confidenceScore ∧
    processLedgerRecord 0 0
      { ledgers := []
        banks := [⟨1, 0, "a", 100, 1, true, some 1⟩, ⟨2, 50, "z", 5, 2, false, none⟩]
        txMatches := [] }
      ⟨2, 0, "a", 100, 2, false, none⟩
      = { ledgers := []
          banks := [⟨1, 0, "a", 100, 1, true, some 1⟩, ⟨2, 50, "z", 5, 2, false, none⟩]
          txMatches := [] } :=
  ⟨(C4_minimum_confidence 0 0).1 [⟨1, 0, "a", 100, 1, false, none⟩]
      { ledgers := [⟨1, 0, "a", 100, 1, false, none⟩]
        banks := [⟨1, 0, "a", 100, 1, false, none⟩]
        txMatches := [] } rfl ⟨1, 1, "exact", (1 : ℚ), 0, 0⟩
      (by norm_num +decide [perform_transaction_matching, processLedgerRecord, findBest,
        innerStep, markLedgerMatched, markBankMatched, calculate_match_score,
        calculate_description_similarity, wordSet, cleanDesc, splitWords, splitWordsAux,
        isWordOrSpace]),
   (C4_minimum_confidence 0 0).2 ⟨2, 0, "a", 100, 2, false, none⟩
      { ledgers := []
        banks := [⟨1, 0, "a", 100, 1, true, some 1⟩, ⟨2, 50, "z", 5, 2, false, none⟩]
        txMatches := [] }
      (by
        intro b hb hbum
        simp only [List.mem_cons, List.not_mem_nil, or_false] at hb
        rcases hb with rfl | rfl
        · simp at hbum
        · norm_num +decide [calculate_match_score, calculate_description_similarity,
            wordSet, cleanDesc, splitWords, splitWordsAux, isWordOrSpace])⟩

theorem perform_cons (dt : Int) (tol : ℚ) (l : LedgerRecord) (rest : List LedgerRecord)
    (st : MatchState) :
    perform_transaction_matching dt tol (l :: rest) st
      = perform_transaction_matching dt tol rest (processLedgerRecord dt tol st l) := by
  simp [perform_transaction_matching]

theorem perform_nil (dt : Int) (tol : ℚ) (st : MatchState) :
    perform_transaction_matching dt tol [] st = st := rfl

theorem processLedger_none (dt : Int) (tol : ℚ) (st : MatchState) (l : LedgerRecord)
    (hfb : (findBest l dt tol st.banks).best = none) :
    processLedgerRecord dt tol st l = st := by
  unfold processLedgerRecord
  simp only [hfb]

theorem processLedger_some (dt : Int) (tol : ℚ) (st : MatchState) (l : LedgerRecord)
    (bank : BankRecord) (hfb : (findBest l dt tol st.banks).best = some bank) :
    processLedgerRecord dt tol st l
      = { ledgers := markLedgerMatched st.ledgers l.id (findBest l dt tol st.banks).bestScore
          banks := markBankMatched st.banks bank.id (findBest l dt tol st.banks).bestScore
          txMatches := st.txMatches ++ [⟨l.id, bank.id,
            (if (findBest l dt tol st.banks).lastScore ≥ 95/100 then "exact"
              else if (findBest l dt tol st.banks).lastScore ≥ 4/5 then "partial"
              else "partial"),
            (findBest l dt tol st.banks).bestScore,
            |l.date - bank.date|, |l.amount - bank.amount|⟩] } := by
  unfold processLedgerRecord
  simp only [hfb]

theorem perform_ledgerIds_sublist (dt : Int) (tol : ℚ) :
    ∀ (ls : List LedgerRecord) (st : MatchState),
      ∃ sub : List LedgerRecord, sub.Sublist ls ∧
        (perform_transaction_matching dt tol ls st).txMatches.map TransactionMatch.ledgerId
          = st.txMatches.map TransactionMatch.ledgerId ++ sub.map LedgerRecord.id := by
  intro ls
  induction ls with
  | nil =>
      intro st
      exact ⟨[], List.Sublist.refl _, by simp [perform_nil]⟩
  | cons l rest ih =>
      intro st
      rcases hfb : (findBest l dt tol st.banks).best with - | bank
      · obtain ⟨sub, hsub, hmap⟩ := ih st
        refine ⟨sub, hsub.cons l, ?_⟩
        rw [perform_cons, processLedger_none dt tol st l hfb]
        exact hmap
      · obtain ⟨sub, hsub, hmap⟩ := ih (processLedgerRecord dt tol st l)
        refine ⟨l :: sub, hsub.cons₂ l, ?_⟩
        rw [perform_cons, hmap, processLedger_some dt tol st l bank hfb]
        simp

theorem processLedger_bank_invariant (dt : Int) (tol : ℚ) (st : MatchState) (l : LedgerRecord)
    (h1 : (st.txMatches.map TransactionMatch.bankId).Nodup)
    (h2 : ∀ m ∈ st.txMatches, ∀ b ∈ st.banks, b.id = m.bankId → b.isMatched = true) :
    ((processLedgerRecord dt tol st l).txMatches.map TransactionMatch.bankId).Nodup ∧
    (∀ m ∈ (processLedgerRecord dt tol st l).txMatches,
      ∀ b ∈ (processLedgerRecord dt tol st l).banks, b.id = m.bankId → b.isMatched = true) := by
  rcases hfb : (findBest l dt tol st.banks).best with - | bank
  · rw [processLedger_none dt tol st l hfb]
    exact ⟨h1, h2⟩
  · obtain ⟨hbmem, hbunm⟩ := findBest_some_mem l dt tol st.banks bank hfb
    have hnotin : bank.id ∉ st.txMatches.map TransactionMatch.bankId := by
      intro hmem
      obtain ⟨m, hm, hid⟩ := List.mem_map.mp hmem
      have := h2 m hm bank hbmem hid.symm
      rw [hbunm] at this
      cases this
    rw [processLedger_some dt tol st l bank hfb]
    constructor
    · simp only [List.map_append, List.map_cons, List.map_nil]
      rw [List.nodup_append]
      refine ⟨h1, List.nodup_singleton _, ?_⟩
      intro x hx hx'
      simp only [List.mem_singleton] at hx'
      subst hx'
      exact hnotin hx
    · intro m hm b hb hbid
      simp only [List.mem_append, List.mem_singleton] at hm
      obtain ⟨b0, hb0, hbeq⟩ := List.mem_map.mp hb
      rcases hm with hm | hm
      · by_cases hcase : b0.id = bank.id
        · rw [if_pos hcase] at hbeq
          rw [← hbeq]
        · rw [if_neg hcase] at hbeq
          subst hbeq
          exact h2 m hm b0 hb0 hbid
      · subst hm
        by_cases hcase : b0.id = bank.id
        · rw [if_pos hcase] at hbeq
          rw [← hbeq]
        · rw [if_neg hcase] at hbeq
          subst hbeq
          exact absurd hbid hcase

theorem perform_bank_invariant (dt : Int) (tol : ℚ) :
    ∀ (ls : List LedgerRecord) (st : MatchState),
      (st.txMatches.map TransactionMatch.bankId).Nodup →
      (∀ m ∈ st.txMatches, ∀ b ∈ st.banks, b.id = m.bankId → b.isMatched = true) →
      ((perform_transaction_matching dt tol ls st).txMatches.map TransactionMatch.bankId).Nodup ∧
      (∀ m ∈ (perform_transaction_matching dt tol ls st).txMatches,
        ∀ b ∈ (perform_transaction_matching dt tol ls st).banks,
          b.id = m.bankId → b.isMatched = true) := by
  intro ls
  induction ls with
  | nil =>
      intro st h1 h2
      rw [perform_nil]
      exact ⟨h1, h2⟩
  | cons l rest ih =>
      intro st h1 h2
      rw [perform_cons]
      have hstep := processLedger_bank_invariant dt tol st l h1 h2
      exact ih _ hstep.1 hstep.2

/-- C5: in a matching pass over ledger records with distinct ids, starting
from a state with no pre-existing matches, no ledger record id and no bank
record id appears in more than one engine-created `TransactionMatch`: each
ledger record yields at most one match, and a bank record, once claimed
(`is_matched` set), is excluded from the candidate pool of every later
ledger record. -/
theorem C5_one_to_one_pairing (dt : Int) (tol : ℚ) (ls : List LedgerRecord)
    (st : MatchState) (h0 : st.txMatches = [])
    (hids : (ls.map LedgerRecord.id).Nodup) :
    ((perform_transaction_matching dt tol ls st).txMatches.map
      TransactionMatch.ledgerId).Nodup ∧
    ((perform_transaction_matching dt tol ls st).txMatches.map
      TransactionMatch.bankId).Nodup := by
  constructor
  · obtain ⟨sub, hsub, hmap⟩ := perform_ledgerIds_sublist dt tol ls st
    rw [hmap, h0]
    simp only [List.map_nil, List.nil_append]
    exact (hsub.map LedgerRecord.id).nodup hids
  · refine (perform_bank_invariant dt tol ls st ?_ ?_).1
    · rw [h0]
      exact List.nodup_nil
    · rw [h0]
      intro m hm
      cases hm

/-- Witness for C5 at a concrete two-ledger, one-bank run. -/
theorem C5_one_to_one_pairing_witness :
    ((perform_transaction_matching 0 0
      [⟨1, 0, "a", 100, 1, false, none⟩, ⟨2, 0, "a", 100, 2, false, none⟩]
      { ledgers := [⟨1, 0, "a", 100, 1, false, none⟩, ⟨2, 0, "a", 100, 2, false, none⟩]
        banks := [⟨1, 0, "a", 100, 1, false, none⟩]
        txMatches := [] }).txMatches.map TransactionMatch.ledgerId).Nodup ∧
    ((perform_transaction_matching 0 0
      [⟨1, 0, "a", 100, 1, false, none⟩, ⟨2, 0, "a", 100, 2, false, none⟩]
      { ledgers := [⟨1, 0, "a", 100, 1, false, none⟩, ⟨2, 0, "a", 100, 2, false, none⟩]
        banks := [⟨1, 0, "a", 100, 1, false, none⟩]
        txMatches := [] }).txMatches.map TransactionMatch.bankId).Nodup :=
  C5_one_to_one_pairing 0 0
    [⟨1, 0, "a", 100, 1, false, none⟩, ⟨2, 0, "a", 100, 2, false, none⟩]
    { ledgers := [⟨1, 0, "a", 100, 1, false, none⟩, ⟨2, 0, "a", 100, 2, false, none⟩]
      banks := [⟨1, 0, "a", 100, 1, false, none⟩]
      txMatches := [] } rfl (by decide)

theorem processLedger_conf_invariant (dt : Int) (tol : ℚ) (st : MatchState) (l : LedgerRecord)
    (hL : ∀ l' ∈ st.ledgers, l'.isMatched = true →
      ∃ m ∈ st.txMatches, m.ledgerId = l'.id ∧ l'.matchConfidence = some m.confidenceScore)
    (hB : ∀ b ∈ st.banks, b.isMatched = true →
      ∃ m ∈ st.txMatches, m.bankId = b.id ∧ b.matchConfidence = some m.confidenceScore) :
    (∀ l' ∈ (processLedgerRecord dt tol st l).ledgers, l'.isMatched = true →
      ∃ m ∈ (processLedgerRecord dt tol st l).txMatches,
        m.ledgerId = l'.id ∧ l'.matchConfidence = some m.confidenceScore) ∧
    (∀ b ∈ (processLedgerRecord dt tol st l).banks, b.isMatched = true →
      ∃ m ∈ (processLedgerRecord dt tol st l).txMatches,
        m.bankId = b.id ∧ b.matchConfidence = some m.confidenceScore) := by
  rcases hfb : (findBest l dt tol st.banks).best with - | bank
  · rw [processLedger_none dt tol st l hfb]
    exact ⟨hL, hB⟩
  · rw [processLedger_some dt tol st l bank hfb]
    constructor
    · intro l' hl' hmatched
      obtain ⟨l0, hl0, heq⟩ := List.mem_map.mp hl'
      by_cases hc : l0.id = l.id
      · rw [if_pos hc] at heq
        subst heq
        refine ⟨⟨l.id, bank.id,
          (if (findBest l dt tol st.banks).lastScore ≥ 95/100 then "exact"
            else if (findBest l dt tol st.banks).lastScore ≥ 4/5 then "partial"
            else "partial"),
          (findBest l dt tol st.banks).bestScore,
          |l.date - bank.date|, |l.amount - bank.amount|⟩, ?_, ?_, rfl⟩
        · exact List.mem_append_right _ (List.mem_singleton_self _)
        · exact hc.symm
      · rw [if_neg hc] at heq
        subst heq
        obtain ⟨m, hm, hmid, hmc⟩ := hL l0 hl0 hmatched
        exact ⟨m, List.mem_append_left _ hm, hmid, hmc⟩
    · intro b hb hmatched
      obtain ⟨b0, hb0, heq⟩ := List.mem_map.mp hb
      by_cases hc : b0.id = bank.id
      · rw [if_pos hc] at heq
        subst heq
        refine ⟨⟨l.id, bank.id,
          (if (findBest l dt tol st.banks).lastScore ≥ 95/100 then "exact"
            else if (findBest l dt tol st.banks).lastScore ≥ 4/5 then "partial"
            else "partial"),
          (findBest l dt tol st.banks).bestScore,
          |l.date - bank.date|, |l.amount - bank.amount|⟩, ?_, ?_, rfl⟩
        · exact List.mem_append_right _ (List.mem_singleton_self _)
        · exact hc.symm
      · rw [if_neg hc] at heq
        subst heq
        obtain ⟨m, hm, hmid, hmc⟩ := hB b0 hb0 hmatched
        exact ⟨m, List.mem_append_left _ hm, hmid, hmc⟩

theorem perform_conf_invariant (dt : Int) (tol : ℚ) :
    ∀ (ls : List LedgerRecord) (st : MatchState),
      (∀ l' ∈ st.ledgers, l'.isMatched = true →
        ∃ m ∈ st.txMatches, m.ledgerId = l'.id ∧ l'.matchConfidence = some m.confidenceScore) →
      (∀ b ∈ st.banks, b.isMatched = true →
        ∃ m ∈ st.txMatches, m.bankId = b.id ∧ b.matchConfidence = some m.confidenceScore) →
      (∀ l' ∈ (perform_transaction_matching dt tol ls st).ledgers, l'.isMatched = true →
        ∃ m ∈ (perform_transaction_matching dt tol ls st).txMatches,
          m.ledgerId = l'.id ∧ l'.matchConfidence = some m.confidenceScore) ∧
      (∀ b ∈ (perform_transaction_matching dt tol ls st).banks, b.isMatched = true →
        ∃ m ∈ (perform_transaction_matching dt tol ls st).txMatches,
          m.bankId = b.id ∧ b.matchConfidence = some m.confidenceScore) := by
  intro ls
  induction ls with
  | nil =>
      intro st hL hB
      rw [perform_nil]
      exact ⟨hL, hB⟩
  | cons l rest ih =>
      intro st hL hB
      rw [perform_cons]
      have hstep := processLedger_conf_invariant dt tol st l hL hB
      exact ih _ hstep.1 hstep.2

/-- C10: starting from a state where every record is unmatched, after the
matching pass every ledger record marked matched carries a
`match_confidence` equal to the `confidence_score` of a match in the pass
that references it by id, and symmetrically for bank records — the engine
stamps `best_score` on the match and on both consumed records. -/
theorem C10_match_confidence_agreement (dt : Int) (tol : ℚ) (ls : List LedgerRecord)
    (st : MatchState)
    (hL : ∀ l ∈ st.ledgers, l.isMatched = false)
    (hB : ∀ b ∈ st.banks, b.isMatched = false) :
    (∀ l ∈ (perform_transaction_matching dt tol ls st).ledgers, l.isMatched = true →
      ∃ m ∈ (perform_transaction_matching dt tol ls st).txMatches,
        m.ledgerId = l.id ∧ l.matchConfidence = some m.confidenceScore) ∧
    (∀ b ∈ (perform_transaction_matching dt tol ls st).banks, b.isMatched = true →
      ∃ m ∈ (perform_transaction_matching dt tol ls st).txMatches,
        m.bankId = b.id ∧ b.matchConfidence = some m.confidenceScore) := by
  refine perform_conf_invariant dt tol ls st ?_ ?_
  · intro l' hl' hmatched
    rw [hL l' hl'] at hmatched
    cases hmatched
  · intro b hb hmatched
    rw [hB b hb] at hmatched
    cases hmatched

/-- Witness for C10: in a concrete one-ledger, one-bank run the matched
ledger record's `match_confidence` agrees with the confidence of the match
referencing it. -/
theorem C10_match_confidence_agreement_witness :
    ∃ m ∈ (perform_transaction_matching 0 0 [⟨1, 0, "a", 100, 1, false, none⟩]
      { ledgers := [⟨1, 0, "a", 100, 1, false, none⟩]
        banks := [⟨1, 0, "a", 100, 1, false, none⟩]
        txMatches := [] }).txMatches,
      m.ledgerId = (⟨1, 0, "a", 100, 1, true, some 1⟩ : LedgerRecord).id ∧
      (⟨1, 0, "a", 100, 1, true, some 1⟩ : LedgerRecord).matchConfidence
        = some m.confidenceScore :=
  (C10_match_confidence_agreement 0 0 [⟨1, 0, "a", 100, 1, false, none⟩]
    { ledgers := [⟨1, 0, "a", 100, 1, false, none⟩]
      banks := [⟨1, 0, "a", 100, 1, false, none⟩]
      txMatches := [] }
    (by intro l hl; simp only [List.mem_singleton] at hl; subst hl; rfl)
    (by intro b hb; simp only [List.mem_singleton] at hb; subst hb; rfl)).1
    ⟨1, 0, "a", 100, 1, true, some 1⟩
    (by norm_num +decide [perform_transaction_matching, processLedgerRecord, findBest,
      innerStep, markLedgerMatched, markBankMatched, calculate_match_score,
      calculate_description_similarity, wordSet, cleanDesc, splitWords, splitWordsAux,
      isWordOrSpace])
    rfl

theorem description_similarity_nonneg (desc1 desc2 : String) :
    0 ≤ calculate_description_similarity desc1 desc2 := by
  simp only [calculate_description_similarity]
  split
  · exact le_refl 0
  · split
    · exact le_refl 0
    · positivity

theorem description_similarity_le_one (desc1 desc2 : String) :
    calculate_description_similarity desc1 desc2 ≤ 1 := by
  simp only [calculate_description_similarity]
  split
  · exact zero_le_one
  · split
    · exact zero_le_one
    · next hne =>
        rw [div_le_one (by positivity)]
        · norm_cast
          calc ((wordSet desc1).filter (fun w => w ∈ wordSet desc2)).length
              ≤ (wordSet desc1).length := List.length_filter_le _ _
            _ ≤ (wordSet desc1 ++ (wordSet desc2).filter (fun w => w ∉ wordSet desc1)).length := by
                rw [List.length_append]
                exact Nat.le_add_right _ _

theorem date_component_bounds (D dt : Int) (hD : 0 ≤ D) (hdt : 0 ≤ dt) :
    0 ≤ (if D = 0 then (3:ℚ)/10
      else if D ≤ dt then (3/10) * (1 - (D:ℚ)/((dt:ℚ)+1)) else 0) ∧
    (if D = 0 then (3:ℚ)/10
      else if D ≤ dt then (3/10) * (1 - (D:ℚ)/((dt:ℚ)+1)) else 0) ≤ 3/10 := by
  have hdt1 : (0:ℚ) < (dt:ℚ) + 1 := by
    have : (0:ℚ) ≤ (dt:ℚ) := by exact_mod_cast hdt
    linarith
  by_cases h0 : D = 0
  · rw [if_pos h0]
    norm_num
  · rw [if_neg h0]
    by_cases hle : D ≤ dt
    · rw [if_pos hle]
      have hx0 : 0 ≤ (D:ℚ)/((dt:ℚ)+1) := by
        apply div_nonneg _ (le_of_lt hdt1)
        exact_mod_cast hD
      have hx1 : (D:ℚ)/((dt:ℚ)+1) ≤ 1 := by
        rw [div_le_one hdt1]
        have : (D:ℚ) ≤ (dt:ℚ) := by exact_mod_cast hle
        linarith
      constructor
      · nlinarith
      · nlinarith
    · rw [if_neg hle]
      norm_num

theorem amount_component_bounds (A tol : ℚ) (hA : 0 ≤ A) (htol : 0 ≤ tol) :
    0 ≤ (if A = 0 then (2:ℚ)/5
      else if A ≤ tol then (2/5) * (1 - A/(tol + 1/100)) else 0) ∧
    (if A = 0 then (2:ℚ)/5
      else if A ≤ tol then (2/5) * (1 - A/(tol + 1/100)) else 0) ≤ 2/5 := by
  have htol1 : (0:ℚ) < tol + 1/100 := by linarith
  by_cases h0 : A = 0
  · rw [if_pos h0]
    norm_num
  · rw [if_neg h0]
    by_cases hle : A ≤ tol
    · rw [if_pos hle]
      have hx0 : 0 ≤ A/(tol + 1/100) := div_nonneg hA (le_of_lt htol1)
      have hx1 : A/(tol + 1/100) ≤ 1 := by
        rw [div_le_one htol1]
        linarith
      constructor
      · nlinarith
      · nlinarith
    · rw [if_neg hle]
      norm_num

/-- C6: for nonnegative tolerances the scorer is exactly the weighted sum
the specification describes — weights 0.30 / 0.40 / 0.30, linear decay with
denominators `tolerance+1` (dates) and `tolerance+0.01` (amounts), 0 beyond
tolerance, full weight at zero difference, description weight times the
Jaccard similarity of the cleaned word sets, clamped to at most 1 — and its
value always lies in [0, 1]. -/
theorem C6_score_contract (ledger : LedgerRecord) (bank : BankRecord)
    (dt : Int) (tol : ℚ) (hdt : 0 ≤ dt) (htol : 0 ≤ tol) :
    calculate_match_score ledger bank dt tol = score_spec ledger bank dt tol ∧
    0 ≤ calculate_match_score ledger bank dt tol ∧
    calculate_match_score ledger bank dt tol ≤ 1 := by
  have hJ0 : 0 ≤ calculate_description_similarity ledger.description bank.description :=
    description_similarity_nonneg _ _
  have hJ1 : calculate_description_similarity ledger.description bank.description ≤ 1 :=
    description_similarity_le_one _ _
  obtain ⟨h1a, h1b⟩ := date_component_bounds |ledger.date - bank.date| dt (abs_nonneg _) hdt
  obtain ⟨h2a, h2b⟩ := amount_component_bounds |ledger.amount - bank.amount| tol
    (abs_nonneg _) htol
  refine ⟨?_, ?_, ?_⟩
  · simp only [calculate_match_score, score_spec]
    have h1 : (if |ledger.date - bank.date| = 0 then (3:ℚ)/10
        else if |ledger.date - bank.date| ≤ dt then
          (3/10) * (1 - ((|ledger.date - bank.date| : ℤ):ℚ)/((dt:ℚ)+1))
        else 0)
        = (if ((|ledger.date - bank.date| : ℤ):ℚ) ≤ (dt:ℚ) then
            (30/100) * (1 - ((|ledger.date - bank.date| : ℤ):ℚ)/((dt:ℚ)+1))
          else 0) := by
      by_cases h0 : |ledger.date - bank.date| = 0
      · rw [if_pos h0, h0]
        rw [if_pos (by exact_mod_cast hdt)]
        norm_num
      · rw [if_neg h0]
        by_cases hle : |ledger.date - bank.date| ≤ dt
        · rw [if_pos hle, if_pos (by exact_mod_cast hle)]
          norm_num
        · rw [if_neg hle, if_neg (fun hq => hle (by exact_mod_cast hq))]
    have h2 : (if |ledger.amount - bank.amount| = 0 then (2:ℚ)/5
        else if |ledger.amount - bank.amount| ≤ tol then
          (2/5) * (1 - |ledger.amount - bank.amount|/(tol + 1/100))
        else 0)
        = (if |ledger.amount - bank.amount| ≤ tol then
            (40/100) * (1 - |ledger.amount - bank.amount|/(tol + 1/100))
          else 0) := by
      by_cases h0 : |ledger.amount - bank.amount| = 0
      · rw [if_pos h0, h0]
        rw [if_pos htol]
        norm_num
      · rw [if_neg h0]
        by_cases hle : |ledger.amount - bank.amount| ≤ tol
        · rw [if_pos hle, if_pos hle]
          norm_num
        · rw [if_neg hle, if_neg hle]
    rw [h1, h2]
    norm_num
  · simp only [calculate_match_score]
    refine le_min ?_ zero_le_one
    have h3 : 0 ≤ (3/10 : ℚ) * calculate_description_similarity ledger.description
        bank.description := by positivity
    linarith
  · simp only [calculate_match_score]
    exact min_le_right _ _

/-- Witness for C6 at concrete records and tolerances 3 days, 0.01. -/
theorem C6_score_contract_witness :
    calculate_match_score ⟨1, 10, "Office Supplies ABC", 100, 1, false, none⟩
      ⟨1, 12, "ABC Office Supplies Inc", 100, 1, false, none⟩ 3 (1/100)
      = score_spec ⟨1, 10, "Office Supplies ABC", 100, 1, false, none⟩
        ⟨1, 12, "ABC Office Supplies Inc", 100, 1, false, none⟩ 3 (1/100) ∧
    0 ≤ calculate_match_score ⟨1, 10, "Office Supplies ABC", 100, 1, false, none⟩
      ⟨1, 12, "ABC Office Supplies Inc", 100, 1, false, none⟩ 3 (1/100) ∧
    calculate_match_score ⟨1, 10, "Office Supplies ABC", 100, 1, false, none⟩
      ⟨1, 12, "ABC Office Supplies Inc", 100, 1, false, none⟩ 3 (1/100) ≤ 1 :=
  C6_score_contract ⟨1, 10, "Office Supplies ABC", 100, 1, false, none⟩
    ⟨1, 12, "ABC Office Supplies Inc", 100, 1, false, none⟩ 3 (1/100)
    (by norm_num) (by norm_num)

theorem countP_key_unique {α β : Type} [DecidableEq β] (f : α → β) (xs : List α)
    (h : (xs.map f).Nodup) (a : α) (ha : a ∈ xs) (p : α → Bool)
    (hpa : p a = true) (hp : ∀ x, p x = true → f x = f a) :
    xs.countP p = 1 := by
  induction xs with
  | nil => cases ha
  | cons x rest ih =>
      simp only [List.map_cons, List.nodup_cons] at h
      obtain ⟨hnx, hnr⟩ := h
      rcases List.mem_cons.mp ha with rfl | hmem
      · rw [List.countP_cons_of_pos p rest hpa]
        have hz : rest.countP p = 0 := by
          apply List.countP_eq_zero.mpr
          intro y hy hpy
          exact hnx (by rw [← hp y hpy]; exact List.mem_map_of_mem f hy)
        rw [hz]
      · have hpx : ¬ p x = true := by
          intro hpx
          exact hnx (by rw [hp x hpx]; exact List.mem_map_of_mem f hmem)
        rw [List.countP_cons_of_neg p rest hpx]
        exact ih hnr hmem

theorem create_exception_records_countP (st : MatchState)
    (p : ReconciliationException → Bool) :
    (create_exception_records st).countP p
      = (st.ledgers.filter (fun x => !x.isMatched)).countP
          (fun record => p ⟨"unmatched_ledger", some record.id, none,
            "Unmatched ledger transaction: " ++ record.description.take 100, "medium"⟩)
      + (st.banks.filter (fun x => !x.isMatched)).countP
          (fun record => p ⟨"unmatched_bank", none, some record.id,
            "Unmatched bank transaction: " ++ record.description.take 100, "medium"⟩) := by
  simp only [create_exception_records, List.countP_append, List.countP_map]
  rfl

/-- C7: over records with distinct ids, after a pass every unmatched ledger
record is referenced by exactly one `unmatched_ledger` exception whose
severity is `medium` and whose description embeds at most 100 characters of
the record's description; symmetrically for bank records; no exception
references a matched record; and every emitted exception has severity
`medium`. -/
theorem C7_unmatched_exception_emission (st : MatchState)
    (hL : (st.ledgers.map LedgerRecord.id).Nodup)
    (hB : (st.banks.map BankRecord.id).Nodup) :
    (∀ l ∈ st.ledgers, l.isMatched = false →
      (create_exception_records st).countP (ledgerExceptionFor l) = 1) ∧
    (∀ l ∈ st.ledgers, l.isMatched = true →
      (create_exception_records st).countP
        (fun e => decide (e.ledgerId = some l.id)) = 0) ∧
    (∀ b ∈ st.banks, b.isMatched = false →
      (create_exception_records st).countP (bankExceptionFor b) = 1) ∧
    (∀ b ∈ st.banks, b.isMatched = true →
      (create_exception_records st).countP
        (fun e => decide (e.bankId = some b.id)) = 0) ∧
    (∀ e ∈ create_exception_records st, e.severity = "medium") := by
  have hsubL : ((st.ledgers.filter (fun x => !x.isMatched)).map LedgerRecord.id).Nodup :=
    ((List.filter_sublist st.ledgers).map _).nodup hL
  have hsubB : ((st.banks.filter (fun x => !x.isMatched)).map BankRecord.id).Nodup :=
    ((List.filter_sublist st.banks).map _).nodup hB
  refine ⟨?_, ?_, ?_, ?_, ?_⟩
  · intro l hl hunm
    rw [create_exception_records_countP]
    have hA : (st.ledgers.filter (fun x => !x.isMatched)).countP
        (fun record => ledgerExceptionFor l ⟨"unmatched_ledger", some record.id, none,
          "Unmatched ledger transaction: " ++ record.description.take 100, "medium"⟩) = 1 := by
      refine countP_key_unique LedgerRecord.id _ hsubL l
        (List.mem_filter.mpr ⟨hl, by simp [hunm]⟩) _ ?_ ?_
      · simp [ledgerExceptionFor]
      · intro x hx
        simp [ledgerExceptionFor] at hx
        exact hx.1
    have hBz : (st.banks.filter (fun x => !x.isMatched)).countP
        (fun record => ledgerExceptionFor l ⟨"unmatched_bank", none, some record.id,
          "Unmatched bank transaction: " ++ record.description.take 100, "medium"⟩) = 0 := by
      apply List.countP_eq_zero.mpr
      intro x hx
      simp [ledgerExceptionFor]
    rw [hA, hBz]
  · intro l hl hmat
    rw [create_exception_records_countP]
    have hA : (st.ledgers.filter (fun x => !x.isMatched)).countP
        (fun record => decide ((some record.id : Option Nat) = some l.id)) = 0 := by
      apply List.countP_eq_zero.mpr
      intro x hx hpx
      have hxid : x.id = l.id := by simpa using hpx
      have hxl : x = l :=
        List.inj_on_of_nodup_map hL (List.mem_filter.mp hx).1 hl hxid
      have hxm : (!x.isMatched) = true := (List.mem_filter.mp hx).2
      rw [hxl, hmat] at hxm
      cases hxm
    have hBz : (st.banks.filter (fun x => !x.isMatched)).countP
        (fun record => decide ((none : Option Nat) = some l.id)) = 0 := by
      apply List.countP_eq_zero.mpr
      intro x hx
      simp
    rw [hA, hBz]
  · intro b hb hunm
    rw [create_exception_records_countP]
    have hAz : (st.ledgers.filter (fun x => !x.isMatched)).countP
        (fun record => bankExceptionFor b ⟨"unmatched_ledger", some record.id, none,
          "Unmatched ledger transaction: " ++ record.description.take 100, "medium"⟩) = 0 := by
      apply List.countP_eq_zero.mpr
      intro x hx
      simp [bankExceptionFor]
    have hA : (st.banks.filter (fun x => !x.isMatched)).countP
        (fun record => bankExceptionFor b ⟨"unmatched_bank", none, some record.id,
          "Unmatched bank transaction: " ++ record.description.take 100, "medium"⟩) = 1 := by
      refine countP_key_unique BankRecord.id _ hsubB b
        (List.mem_filter.mpr ⟨hb, by simp [hunm]⟩) _ ?_ ?_
      · simp [bankExceptionFor]
      · intro x hx
        simp [bankExceptionFor] at hx
        exact hx.1
    rw [hAz, hA]
  · intro b hb hmat
    rw [create_exception_records_countP]
    have hAz : (st.ledgers.filter (fun x => !x.isMatched)).countP
        (fun record => decide ((none : Option Nat) = some b.id)) = 0 := by
      apply List.countP_eq_zero.mpr
      intro x hx
      simp
    have hBz : (st.banks.filter (fun x => !x.isMatched)).countP
        (fun record => decide ((some record.id : Option Nat) = some b.id)) = 0 := by
      apply List.countP_eq_zero.mpr
      intro x hx hpx
      have hxid : x.id = b.id := by simpa using hpx
      have hxb : x = b :=
        List.inj_on_of_nodup_map hB (List.mem_filter.mp hx).1 hb hxid
      have hxm : (!x.isMatched) = true := (List.mem_filter.mp hx).2
      rw [hxb, hmat] at hxm
      cases hxm
    rw [hAz, hBz]
  · intro e he
    simp only [create_exception_records, List.mem_append] at he
    rcases he with he | he <;> (obtain ⟨r, hr, rfl⟩ := List.mem_map.mp he; rfl)

/-- Witness for C7: a concrete state with one unmatched and one matched
ledger record. -/
theorem C7_unmatched_exception_emission_witness :
    (create_exception_records
      { ledgers := [⟨1, 0, "Rent", 100, 1, false, none⟩, ⟨2, 0, "Fee", 5, 2, true, some 1⟩]
        banks := [⟨1, 0, "Rent", 100, 1, false, none⟩]
        txMatches := [] }).countP
      (ledgerExceptionFor ⟨1, 0, "Rent", 100, 1, false, none⟩) = 1 ∧
    (create_exception_records
      { ledgers := [⟨1, 0, "Rent", 100, 1, false, none⟩, ⟨2, 0, "Fee", 5, 2, true, some 1⟩]
        banks := [⟨1, 0, "Rent", 100, 1, false, none⟩]
        txMatches := [] }).countP (fun e => decide (e.ledgerId = some 2)) = 0 :=
  ⟨(C7_unmatched_exception_emission
      { ledgers := [⟨1, 0, "Rent", 100, 1, false, none⟩, ⟨2, 0, "Fee", 5, 2, true, some 1⟩]
        banks := [⟨1, 0, "Rent", 100, 1, false, none⟩]
        txMatches := [] } (by decide) (by decide)).1
      ⟨1, 0, "Rent", 100, 1, false, none⟩ (by simp) rfl,
   (C7_unmatched_exception_emission
      { ledgers := [⟨1, 0, "Rent", 100, 1, false, none⟩, ⟨2, 0, "Fee", 5, 2, true, some 1⟩]
        banks := [⟨1, 0, "Rent", 100, 1, false, none⟩]
        txMatches := [] } (by decide) (by decide)).2.1
      ⟨2, 0, "Fee", 5, 2, true, some 1⟩ (by simp) rfl⟩

theorem markLedgerMatched_cons (x : LedgerRecord) (rest : List LedgerRecord)
    (i : Nat) (s : ℚ) :
    markLedgerMatched (x :: rest) i s
      = (if x.id = i then { x with isMatched := true, matchConfidence := some s } else x)
        :: markLedgerMatched rest i s := rfl

theorem markBankMatched_cons (x : BankRecord) (rest : List BankRecord)
    (i : Nat) (s : ℚ) :
    markBankMatched (x :: rest) i s
      = (if x.id = i then { x with isMatched := true, matchConfidence := some s } else x)
        :: markBankMatched rest i s := rfl

theorem markLedgerMatched_not_mem (ls : List LedgerRecord) (i : Nat) (s : ℚ)
    (h : i ∉ ls.map LedgerRecord.id) : markLedgerMatched ls i s = ls := by
  induction ls with
  | nil => rfl
  | cons x rest ih =>
      simp only [List.map_cons, List.mem_cons] at h
      push_neg at h
      rw [markLedgerMatched_cons, if_neg (fun hc => h.1 hc.symm), ih h.2]

theorem markBankMatched_not_mem (bs : List BankRecord) (i : Nat) (s : ℚ)
    (h : i ∉ bs.map BankRecord.id) : markBankMatched bs i s = bs := by
  induction bs with
  | nil => rfl
  | cons x rest ih =>
      simp only [List.map_cons, List.mem_cons] at h
      push_neg at h
      rw [markBankMatched_cons, if_neg (fun hc => h.1 hc.symm), ih h.2]

theorem countP_unmatched_markLedger (ls : List LedgerRecord) (i : Nat) (s : ℚ)
    (hn : (ls.map LedgerRecord.id).Nodup) (l' : LedgerRecord) (hmem : l' ∈ ls)
    (hid : l'.id = i) (hum : l'.isMatched = false) :
    (markLedgerMatched ls i s).countP (fun x => !x.isMatched) + 1
      = ls.countP (fun x => !x.isMatched) := by
  induction ls with
  | nil => cases hmem
  | cons x rest ih =>
      simp only [List.map_cons, List.nodup_cons] at hn
      obtain ⟨hnx, hnr⟩ := hn
      rw [markLedgerMatched_cons]
      rcases List.mem_cons.mp hmem with rfl | hmem'
      · rw [if_pos hid]
        have hrest : markLedgerMatched rest i s = rest :=
          markLedgerMatched_not_mem rest i s (by rw [← hid]; exact hnx)
        rw [hrest, List.countP_cons, List.countP_cons]
        simp [hum]
      · have hxid : ¬ x.id = i := by
          intro hc
          apply hnx
          rw [hc, ← hid]
          exact List.mem_map_of_mem LedgerRecord.id hmem'
        rw [if_neg hxid, List.countP_cons, List.countP_cons]
        have := ih hnr hmem'
        omega

theorem countP_unmatched_markBank (bs : List BankRecord) (i : Nat) (s : ℚ)
    (hn : (bs.map BankRecord.id).Nodup) (b' : BankRecord) (hmem : b' ∈ bs)
    (hid : b'.id = i) (hum : b'.isMatched = false) :
    (markBankMatched bs i s).countP (fun x => !x.isMatched) + 1
      = bs.countP (fun x => !x.isMatched) := by
  induction bs with
  | nil => cases hmem
  | cons x rest ih =>
      simp only [List.map_cons, List.nodup_cons] at hn
      obtain ⟨hnx, hnr⟩ := hn
      rw [markBankMatched_cons]
      rcases List.mem_cons.mp hmem with rfl | hmem'
      · rw [if_pos hid]
        have hrest : markBankMatched rest i s = rest :=
          markBankMatched_not_mem rest i s (by rw [← hid]; exact hnx)
        rw [hrest, List.countP_cons, List.countP_cons]
        simp [hum]
      · have hxid : ¬ x.id = i := by
          intro hc
          apply hnx
          rw [hc, ← hid]
          exact List.mem_map_of_mem BankRecord.id hmem'
        rw [if_neg hxid, List.countP_cons, List.countP_cons]
        have := ih hnr hmem'
        omega

theorem perform_counter_inv (dt : Int) (tol : ℚ) :
    ∀ (ls : List LedgerRecord) (st : MatchState),
      (ls.map LedgerRecord.id).Nodup →
      (∀ l ∈ ls, l.id ∈ st.ledgers.map LedgerRecord.id) →
      (∀ l ∈ ls, ∀ l' ∈ st.ledgers, l'.id = l.id → l'.isMatched = false) →
      (st.ledgers.map LedgerRecord.id).Nodup →
      (st.banks.map BankRecord.id).Nodup →
      ((perform_transaction_matching dt tol ls st).txMatches.length
          + (perform_transaction_matching dt tol ls st).ledgers.countP (fun l => !l.isMatched)
        = st.txMatches.length + st.ledgers.countP (fun l => !l.isMatched)) ∧
      ((perform_transaction_matching dt tol ls st).txMatches.length
          + (perform_transaction_matching dt tol ls st).banks.countP (fun b => !b.isMatched)
        = st.txMatches.length + st.banks.countP (fun b => !b.isMatched)) := by
  intro ls
  induction ls with
  | nil =>
      intro st _ _ _ _ _
      rw [perform_nil]
      exact ⟨rfl, rfl⟩
  | cons l rest ih =>
      intro st hn hmem hfresh hnL hnB
      simp only [List.map_cons, List.nodup_cons] at hn
      obtain ⟨hnl, hnrest⟩ := hn
      rw [perform_cons]
      rcases hfb : (findBest l dt tol st.banks).best with - | bank
      · rw [processLedger_none dt tol st l hfb]
        exact ih st hnrest (fun x hx => hmem x (List.mem_cons_of_mem _ hx))
          (fun x hx => hfresh x (List.mem_cons_of_mem _ hx)) hnL hnB
      · have hstep := processLedger_some dt tol st l bank hfb
        obtain ⟨hbmem, hbunm⟩ := findBest_some_mem l dt tol st.banks bank hfb
        obtain ⟨l0, hl0, hl0id⟩ := List.mem_map.mp (hmem l (List.mem_cons_self l rest))
        have hl0um : l0.isMatched = false :=
          hfresh l (List.mem_cons_self l rest) l0 hl0 hl0id
        have hcntL : (markLedgerMatched st.ledgers l.id
              (findBest l dt tol st.banks).bestScore).countP (fun x => !x.isMatched) + 1
            = st.ledgers.countP (fun x => !x.isMatched) :=
          countP_unmatched_markLedger st.ledgers l.id _ hnL l0 hl0 hl0id hl0um
        have hcntB : (markBankMatched st.banks bank.id
              (findBest l dt tol st.banks).bestScore).countP (fun x => !x.isMatched) + 1
            = st.banks.countP (fun x => !x.isMatched) :=
          countP_unmatched_markBank st.banks bank.id _ hnB bank hbmem rfl hbunm
        have hidsL : (markLedgerMatched st.ledgers l.id
              (findBest l dt tol st.banks).bestScore).map LedgerRecord.id
            = st.ledgers.map LedgerRecord.id := markLedgerMatched_map_id _ _ _
        have hidsB : (markBankMatched st.banks bank.id
              (findBest l dt tol st.banks).bestScore).map BankRecord.id
            = st.banks.map BankRecord.id := markBankMatched_map_id _ _ _
        have hih := ih (processLedgerRecord dt tol st l) hnrest
          (by
            intro x hx
            rw [hstep]
            simp only [hidsL]
            exact hmem x (List.mem_cons_of_mem _ hx))
          (by
            intro x hx l' hl' hlid
            rw [hstep] at hl'
            simp only at hl'
            obtain ⟨y, hy, hyeq⟩ := List.mem_map.mp hl'
            by_cases hc : y.id = l.id
            · exfalso
              apply hnl
              rw [if_pos hc] at hyeq
              have h1 : l'.id = y.id := by rw [← hyeq]
              have hxy : x.id = l.id := by rw [← hlid, h1, hc]
              rw [← hxy]
              exact List.mem_map_of_mem LedgerRecord.id hx
            · rw [if_neg hc] at hyeq
              subst hyeq
              exact hfresh x (List.mem_cons_of_mem _ hx) y hy hlid)
          (by rw [hstep]; simpa only [hidsL] using hnL)
          (by rw [hstep]; simpa only [hidsB] using hnB)
        have hlen : (processLedgerRecord dt tol st l).txMatches.length
            = st.txMatches.length + 1 := by
          rw [hstep]
          simp
        have hcl : (processLedgerRecord dt tol st l).ledgers.countP (fun x => !x.isMatched) + 1
            = st.ledgers.countP (fun x => !x.isMatched) := by
          rw [hstep]
          exact hcntL
        have hcb : (processLedgerRecord dt tol st l).banks.countP (fun x => !x.isMatched) + 1
            = st.banks.countP (fun x => !x.isMatched) := by
          rw [hstep]
          exact hcntB
        obtain ⟨hih1, hih2⟩ := hih
        constructor
        · rw [hih1]
          omega
        · rw [hih2]
          omega

/-- C8: after a completed run on a freshly parsed session (no pre-existing
matches, all records unmatched, distinct ids), the recomputed counters
satisfy `matched + unmatched_ledger = total_ledger` and
`matched + unmatched_bank = total_bank`, with the totals being the numbers
of parsed records as set by `process_reconciliation_files`. -/
theorem C8_counter_consistency (dt : Int) (tol : ℚ) (st : MatchState)
    (h0 : st.txMatches = [])
    (hL : ∀ l ∈ st.ledgers, l.isMatched = false)
    (hB : ∀ b ∈ st.banks, b.isMatched = false)
    (hnL : (st.ledgers.map LedgerRecord.id).Nodup)
    (hnB : (st.banks.map BankRecord.id).Nodup) :
    ((update_session_statistics (runMatching dt tol st) st.ledgers.length
        st.banks.length).matchedRecords
      + (update_session_statistics (runMatching dt tol st) st.ledgers.length
          st.banks.length).unmatchedLedgerRecords
      = (update_session_statistics (runMatching dt tol st) st.ledgers.length
          st.banks.length).totalLedgerRecords) ∧
    ((update_session_statistics (runMatching dt tol st) st.ledgers.length
        st.banks.length).matchedRecords
      + (update_session_statistics (runMatching dt tol st) st.ledgers.length
          st.banks.length).unmatchedBankRecords
      = (update_session_statistics (runMatching dt tol st) st.ledgers.length
          st.banks.length).totalBankRecords) := by
  have hfilter : st.ledgers.filter (fun l => !l.isMatched) = st.ledgers :=
    List.filter_eq_self.mpr (fun x hx => by simp [hL x hx])
  have hqperm : (ledgerQueryset st).Perm st.ledgers := by
    unfold ledgerQueryset
    rw [hfilter]
    exact sortLe_perm _ _
  have hbperm : (sortLe bankLe st.banks).Perm st.banks := sortLe_perm _ _
  have hrun : runMatching dt tol st
      = perform_transaction_matching dt tol (ledgerQueryset st)
          { st with banks := sortLe bankLe st.banks } := rfl
  have hinv := perform_counter_inv dt tol (ledgerQueryset st)
    { st with banks := sortLe bankLe st.banks }
    ((hqperm.map LedgerRecord.id).nodup_iff.mpr hnL)
    (fun l hl => List.mem_map_of_mem _ (hqperm.mem_iff.mp hl))
    (fun l _ l' hl' _ => hL l' hl')
    hnL
    ((hbperm.map BankRecord.id).nodup_iff.mpr hnB)
  obtain ⟨h1, h2⟩ := hinv
  have hproj1 : MatchState.ledgers { st with banks := sortLe bankLe st.banks }
      = st.ledgers := rfl
  have hproj2 : MatchState.banks { st with banks := sortLe bankLe st.banks }
      = sortLe bankLe st.banks := rfl
  have hproj3 : MatchState.txMatches { st with banks := sortLe bankLe st.banks }
      = st.txMatches := rfl
  rw [hproj1, hproj3] at h1
  rw [hproj2, hproj3] at h2
  have hc0L : st.ledgers.countP (fun l => !l.isMatched) = st.ledgers.length :=
    List.countP_eq_length.mpr (fun a ha => by simp [hL a ha])
  have hc0B : (sortLe bankLe st.banks).countP (fun b => !b.isMatched)
      = st.banks.length := by
    rw [List.Perm.countP_eq _ hbperm]
    exact List.countP_eq_length.mpr (fun a ha => by simp [hB a ha])
  have hlen0 : st.txMatches.length = 0 := by
    rw [h0]
    rfl
  simp only [update_session_statistics]
  rw [hrun, ← List.countP_eq_length_filter, ← List.countP_eq_length_filter]
  constructor
  · rw [h1]
    omega
  · rw [h2]
    omega

/-- Witness for C8 at a concrete fresh one-ledger, one-bank session. -/
theorem C8_counter_consistency_witness :
    ((update_session_statistics (runMatching 0 0
        { ledgers := [⟨1, 0, "a", 100, 1, false, none⟩]
          banks := [⟨1, 0, "a", 100, 1, false, none⟩]
          txMatches := [] }) 1 1).matchedRecords
      + (update_session_statistics (runMatching 0 0
          { ledgers := [⟨1, 0, "a", 100, 1, false, none⟩]
            banks := [⟨1, 0, "a", 100, 1, false, none⟩]
            txMatches := [] }) 1 1).unmatchedLedgerRecords
      = (update_session_statistics (runMatching 0 0
          { ledgers := [⟨1, 0, "a", 100, 1, false, none⟩]
            banks := [⟨1, 0, "a", 100, 1, false, none⟩]
            txMatches := [] }) 1 1).totalLedgerRecords) ∧
    ((update_session_statistics (runMatching 0 0
        { ledgers := [⟨1, 0, "a", 100, 1, false, none⟩]
          banks := [⟨1, 0, "a", 100, 1, false, none⟩]
          txMatches := [] }) 1 1).matchedRecords
      + (update_session_statistics (runMatching 0 0
          { ledgers := [⟨1, 0, "a", 100, 1, false, none⟩]
            banks := [⟨1, 0, "a", 100, 1, false, none⟩]
            txMatches := [] }) 1 1).unmatchedBankRecords
      = (update_session_statistics (runMatching 0 0
          { ledgers := [⟨1, 0, "a", 100, 1, false, none⟩]
            banks := [⟨1, 0, "a", 100, 1, false, none⟩]
            txMatches := [] }) 1 1).totalBankRecords) :=
  C8_counter_consistency 0 0
    { ledgers := [⟨1, 0, "a", 100, 1, false, none⟩]
      banks := [⟨1, 0, "a", 100, 1, false, none⟩]
      txMatches := [] } rfl
    (by intro l hl; simp only [List.mem_singleton] at hl; subst hl; rfl)
    (by intro b hb; simp only [List.mem_singleton] at hb; subst hb; rfl)
    (by decide) (by decide)
